import Mathlib

/-!
Shallow embedding of the repository's two Python modules.

`tprg2131resistor.py` defines class `Resistor` with fixed parameters
(`resistance`, `tolerance`, `rating`), mutable derived state
(`_voltage`, `_current`, `_power`), mutators `set_voltage`/`set_current`,
combinators `series`/`parallel` (also reachable through the overloaded
operators `+` and `//`), and a `__str__` rendering.

`resistorcapacitor1.py` declares class `ResistorCapacitor` as an empty
starter stub: its `__init__` and `set_voltage` bodies are bare `return`s and
no `voltage` method exists, although the module's self-test drives exactly
that interface.  The transient-response behaviour is therefore modelled from
the specification where noted.

Python floats are embedded as `ℚ` for the resistor (all of its arithmetic on
the inputs of interest is exact) and as `ℝ` for the RC network, whose law
uses `exp`.  Python's float division raises `ZeroDivisionError` on a zero
denominator; this failure path is embedded explicitly (`Except`) in
`parallel`, the one operation whose error behaviour the claims examine.
-/

/-- Error kinds observable from the embedded operations.  `invalidParameter`
is the single validation-error kind named by the design document;
`zeroDivision` models Python's built-in `ZeroDivisionError`, which is what
float division by zero actually raises. -/
inductive ElecError where
  | invalidParameter
  | zeroDivision
  deriving DecidableEq

/-- State of a `Resistor` object: the three fixed physical parameters and the
three derived electrical state variables, mirroring the attributes set by
`Resistor.__init__`. -/
structure Resistor where
  resistance : ℚ
  tolerance : ℚ
  rating : ℚ
  voltage : ℚ
  current : ℚ
  power : ℚ
  deriving DecidableEq

/-- `Resistor.__init__(res, tol, pwr)`: stores the three parameters and zeroes
the three electrical state variables.  The Python constructor performs no
validation and has no failure path. -/
def mkResistor (res tol pwr : ℚ) : Resistor :=
  { resistance := res, tolerance := tol, rating := pwr,
    voltage := 0, current := 0, power := 0 }

/-- `Resistor.set_voltage(v)`: sets the voltage, derives current and power. -/
def Resistor.set_voltage (r : Resistor) (v : ℚ) : Resistor :=
  { r with voltage := v, current := v / r.resistance,
           power := |v * (v / r.resistance)| }

/-- `Resistor.set_current(amps)`: sets the current, derives voltage and
power. -/
def Resistor.set_current (r : Resistor) (amps : ℚ) : Resistor :=
  { r with current := amps, voltage := amps * r.resistance,
           power := |(amps * r.resistance) * amps| }

/-- `Resistor.series(other)`: new `Resistor` of the summed resistance, the
wider tolerance and the lesser rating, with the non-strict comparisons of the
source. -/
def Resistor.series (a b : Resistor) : Resistor :=
  let rs := a.resistance + b.resistance
  let newtol := if a.tolerance ≥ b.tolerance then a.tolerance else b.tolerance
  let newrating := if a.rating ≤ b.rating then a.rating else b.rating
  mkResistor rs newtol newrating

/-- `Resistor.__add__`: the body is literally `return self.series(other)`. -/
def Resistor.addOp (a b : Resistor) : Resistor :=
  a.series b

/-- `Resistor.parallel(other)`: computes `1 / (1/self.resistance +
1/other.resistance)`.  The expression performs three float divisions, each of
which raises `ZeroDivisionError` in Python on a zero denominator: the two
inner reciprocals when an operand resistance is zero, and the outer division
when the reciprocals sum to zero (reachable, since the constructor validates
nothing: resistances `1000` and `-1000` cancel exactly).  The embedding
surfaces each as `Except.error .zeroDivision`, checking the denominators in
the evaluation order of the source expression. -/
def Resistor.parallel (a b : Resistor) : Except ElecError Resistor :=
  if a.resistance = 0 then .error .zeroDivision
  else if b.resistance = 0 then .error .zeroDivision
  else if 1 / a.resistance + 1 / b.resistance = 0 then .error .zeroDivision
  else
    let rp := 1 / (1 / a.resistance + 1 / b.resistance)
    let newtol := if a.tolerance ≥ b.tolerance then a.tolerance else b.tolerance
    let newrating := if a.rating ≤ b.rating then a.rating else b.rating
    .ok (mkResistor rp newtol newrating)

/-- `Resistor.__floordiv__`: the body is literally
`return self.parallel(other)`. -/
def Resistor.floordivOp (a b : Resistor) : Except ElecError Resistor :=
  a.parallel b

/-- Explicit-state-passing form of `series`: a Python method call
`self.series(other)` yields a result and the post-call states of `self` and
`other`.  The method body contains no assignment to either operand, so the
translation returns them as they came in. -/
def Resistor.seriesM (a b : Resistor) : Resistor × Resistor × Resistor :=
  (a.series b, a, b)

/-- Explicit-state-passing form of `parallel`; like `seriesM`, the body never
assigns to `self` or `other`. -/
def Resistor.parallelM (a b : Resistor) :
    Except ElecError Resistor × Resistor × Resistor :=
  (a.parallel b, a, b)

/-- The standing electrical-state consistency property of a `Resistor`:
Ohm's law for the derived current, the absolute-value power law, and
non-negative power. -/
def ohmInvariant (r : Resistor) : Prop :=
  r.current = r.voltage / r.resistance ∧ r.power = |r.voltage * r.current| ∧
    0 ≤ r.power

instance (r : Resistor) : Decidable (ohmInvariant r) := by
  unfold ohmInvariant; infer_instance

/-- Helper: the source's `if x >= y then x else y` is `max`. -/
theorem if_ge_eq_max (x y : ℚ) : (if x ≥ y then x else y) = max x y := by
  rcases le_total y x with h | h
  · rw [if_pos h, max_eq_left h]
  · rcases eq_or_lt_of_le h with rfl | h'
    · simp
    · rw [if_neg (not_le.mpr h'), max_eq_right h]

/-- Helper: the source's `if x <= y then x else y` is `min`. -/
theorem if_le_eq_min (x y : ℚ) : (if x ≤ y then x else y) = min x y := by
  rcases le_total x y with h | h
  · rw [if_pos h, min_eq_left h]
  · rcases eq_or_lt_of_le h with rfl | h'
    · simp
    · rw [if_neg (not_le.mpr h'), min_eq_right h]

/-- Digit character for a value below ten, as Python's number-to-text
conversion produces it. -/
def natDigitChar (n : Nat) : Char :=
  Char.ofNat (48 + n)

/-- Decimal digits of a natural number, most significant first (fuel-bounded
so the definition stays structurally recursive and kernel-reducible). -/
def natDigits : Nat → Nat → List Char
  | 0, _ => []
  | fuel + 1, n =>
    if n < 10 then [natDigitChar n]
    else natDigits fuel (n / 10) ++ [natDigitChar (n % 10)]

/-- Decimal digits of the fractional part of a non-negative rational below
one, stopping when the remainder is exhausted (fuel-bounded). -/
def fracDigits : Nat → ℚ → List Char
  | 0, _ => []
  | fuel + 1, q =>
    if q = 0 then []
    else natDigitChar (⌊q * 10⌋).toNat :: fracDigits fuel (q * 10 - (⌊q * 10⌋ : ℚ))

/-- Python's default float-to-text conversion `str(x)`, for floats whose
value is a finite decimal that `repr` prints in positional notation: the
integer part, a dot, then the fractional digits (a bare `0` when the value is
integral, e.g. `str(1000.0) = "1000.0"`). -/
def pyFloatStr (q : ℚ) : String :=
  (if q < 0 then "-" else "") ++ String.mk (natDigits 32 (⌊|q|⌋).toNat) ++ "." ++
    (if (fracDigits 32 (|q| - (⌊|q|⌋ : ℚ))).isEmpty then "0"
     else String.mk (fracDigits 32 (|q| - (⌊|q|⌋ : ℚ))))

/-- `Resistor.__str__`: concatenates the three parameters with the Omega,
plus-minus, percent and Watt markers exactly as the source does. -/
def Resistor.str (r : Resistor) : String :=
  pyFloatStr r.resistance ++ "Ω " ++ "±" ++ pyFloatStr r.tolerance ++ "%" ++
    " (" ++ pyFloatStr r.rating ++ "W)"

/-- Rounding to two decimal places, as the unit test's `round(x, 2)` does on
these values (the tested value is not a tie, so the half-rounding convention
is immaterial). -/
def round2 (q : ℚ) : ℚ :=
  (round (q * 100) : ℤ) / 100

/-- State of a `ResistorCapacitor` network.  Modelled from the spec: the
source class is an empty starter stub (its `__init__` and `set_voltage`
bodies are bare `return`s and it has no `voltage` method), so the fields are
the ones the design document's data model names. -/
structure RCNetwork where
  resistance : ℝ
  capacitance : ℝ
  targetVoltage : ℝ
  referenceVoltage : ℝ
  referenceTime : ℝ

/-- Modelled from the spec: the `ResistorCapacitor` constructor, missing from
the stub.  Validates positive resistance and capacitance, then sets both the
target and the reference voltage to the initial voltage and the reference
time to zero. -/
noncomputable def mkRCNetwork (resistance capacitance initial : ℝ) :
    Except ElecError RCNetwork :=
  if resistance ≤ 0 ∨ capacitance ≤ 0 then .error .invalidParameter
  else .ok { resistance := resistance, capacitance := capacitance,
             targetVoltage := initial, referenceVoltage := initial,
             referenceTime := 0 }

/-- Modelled from the spec: the transient-response value
`targetVoltage + (referenceVoltage - targetVoltage) ·
exp(-(atTime - referenceTime) / (resistance · capacitance))`,
missing from the stub. -/
noncomputable def RCNetwork.voltageVal (rc : RCNetwork) (atTime : ℝ) : ℝ :=
  rc.targetVoltage + (rc.referenceVoltage - rc.targetVoltage) *
    Real.exp (-(atTime - rc.referenceTime) / (rc.resistance * rc.capacitance))

/-- Modelled from the spec: `ResistorCapacitor.voltage(atTime)`, missing from
the stub.  Querying before the reference time is a usage error signalled as
`invalidParameter`; otherwise the exponential relaxation value is returned. -/
noncomputable def RCNetwork.voltage (rc : RCNetwork) (atTime : ℝ) :
    Except ElecError ℝ :=
  if atTime < rc.referenceTime then .error .invalidParameter
  else .ok (rc.voltageVal atTime)

/-- Modelled from the spec: `ResistorCapacitor.set_voltage(v, atTime)`, whose
stub body is a bare `return`.  Captures the network's instantaneous voltage
under the current transient as the new reference voltage, and resets the
reference time and the target voltage, in one state update. -/
noncomputable def RCNetwork.set_voltage (rc : RCNetwork) (v atTime : ℝ) :
    RCNetwork :=
  { rc with targetVoltage := v, referenceVoltage := rc.voltageVal atTime,
            referenceTime := atTime }

/-- C1: after construction, after `set_voltage(v)` and after `set_current(i)`,
the derived state satisfies `current = voltage / resistance` and
`power = |voltage * current|`, and the power is non-negative.  The
`set_current` and `set_voltage` cases use the data-model invariant that the
resistance is non-zero (Ohm's law cannot be re-read from a zero
resistance, and Python's division would raise there). -/
theorem C1_ohm_invariant (res tol pwr : ℚ) (r : Resistor)
    (hr : r.resistance ≠ 0) (v i : ℚ) :
    ohmInvariant (mkResistor res tol pwr)
      ∧ ohmInvariant (r.set_voltage v)
      ∧ ohmInvariant (r.set_current i) := by
  refine ⟨⟨by simp [mkResistor], by simp [mkResistor], le_refl 0⟩,
    ⟨rfl, rfl, abs_nonneg _⟩, ⟨?_, rfl, abs_nonneg _⟩⟩
  show i = i * r.resistance / r.resistance
  rw [mul_div_cancel_right₀ i hr]

/-- Witness for C1 at `Resistor(3, 5, 1/4)` with `v = -2` and `i = 7`. -/
theorem C1_ohm_invariant_witness :
    ohmInvariant (mkResistor 3 5 (1/4))
      ∧ ohmInvariant ((mkResistor 3 5 (1/4)).set_voltage (-2))
      ∧ ohmInvariant ((mkResistor 3 5 (1/4)).set_current 7) :=
  C1_ohm_invariant 3 5 (1/4) (mkResistor 3 5 (1/4))
    (by norm_num [mkResistor]) (-2) 7

/-- C3: `series` adds the resistances, takes the wider tolerance and the
lesser rating, zeroes the derived state, and on the unit test's concrete pair
returns resistance 3000, tolerance 10, rating 1/4. -/
theorem C3_series (a b : Resistor) :
    (a.series b).resistance = a.resistance + b.resistance
      ∧ (a.series b).tolerance = max a.tolerance b.tolerance
      ∧ (a.series b).rating = min a.rating b.rating
      ∧ (a.series b).voltage = 0
      ∧ (a.series b).current = 0
      ∧ (a.series b).power = 0
      ∧ (mkResistor 1000 10 (1/4)).series (mkResistor 2000 5 (1/2)) =
          mkResistor 3000 10 (1/4) := by
  refine ⟨rfl, if_ge_eq_max _ _, if_le_eq_min _ _, rfl, rfl, rfl, ?_⟩
  norm_num [Resistor.series, mkResistor]

/-- C4, counterexample: resistances `1000` and `-1000` are both non-zero, so
the claim admits them, yet their reciprocals cancel and `parallel` fails with
a division-by-zero error on the outer division instead of returning a
`Resistor`. -/
theorem C4_counterexample :
    (mkResistor 1000 5 (1/4)).resistance ≠ 0
      ∧ (mkResistor (-1000) 5 (1/4)).resistance ≠ 0
      ∧ (mkResistor 1000 5 (1/4)).parallel (mkResistor (-1000) 5 (1/4)) =
          Except.error ElecError.zeroDivision := by
  refine ⟨by norm_num [mkResistor], by norm_num [mkResistor], ?_⟩
  rw [Resistor.parallel,
    if_neg (by norm_num [mkResistor] :
      ¬(mkResistor 1000 5 (1/4)).resistance = 0),
    if_neg (by norm_num [mkResistor] :
      ¬(mkResistor (-1000) 5 (1/4)).resistance = 0),
    if_pos (by norm_num [mkResistor] :
      1 / (mkResistor 1000 5 (1/4)).resistance +
        1 / (mkResistor (-1000) 5 (1/4)).resistance = 0)]

/-- C4, amended: for operands of non-zero resistance whose reciprocals do not
sum to zero, `parallel` succeeds with the reciprocal-sum resistance, the
wider tolerance, the lesser rating and a zeroed derived state (when the
reciprocals do sum to zero the call fails with a division-by-zero error, per
`C4_counterexample`). -/
theorem C4_parallel (a b : Resistor) (ha : a.resistance ≠ 0)
    (hb : b.resistance ≠ 0)
    (hs : 1 / a.resistance + 1 / b.resistance ≠ 0) :
    a.parallel b = Except.ok (mkResistor
        (1 / (1 / a.resistance + 1 / b.resistance))
        (max a.tolerance b.tolerance) (min a.rating b.rating)) := by
  rw [Resistor.parallel, if_neg ha, if_neg hb, if_neg hs]
  simp only [if_ge_eq_max, if_le_eq_min]

/-- Witness for C4 on the unit test's concrete pair: the parallel resistance
is `2000/3`, which rounds at two decimals to `666.67`; tolerance 10 and
rating 1/4 are kept, with zeroed state. -/
theorem C4_parallel_witness :
    (mkResistor 1000 10 (1/4)).parallel (mkResistor 2000 5 (1/2)) =
        Except.ok (mkResistor (2000/3) 10 (1/4))
      ∧ round2 (2000/3 : ℚ) = 66667 / 100 := by
  constructor
  · rw [C4_parallel (mkResistor 1000 10 (1/4)) (mkResistor 2000 5 (1/2))
      (by norm_num [mkResistor]) (by norm_num [mkResistor])
      (by norm_num [mkResistor])]
    norm_num [mkResistor]
  · have hfl : ⌊(2000/3 * 100 + 1/2 : ℚ)⌋ = 66667 := by
      rw [Int.floor_eq_iff]
      constructor <;> norm_num
    rw [round2, round_eq, hfl]
    norm_num

/-- C7: `series` and `parallel` are commutative in the resulting resistance,
tolerance and rating (for `parallel` the whole result, error case included,
is symmetric in the operands). -/
theorem C7_commutative (a b : Resistor) :
    (a.series b).resistance = (b.series a).resistance
      ∧ (a.series b).tolerance = (b.series a).tolerance
      ∧ (a.series b).rating = (b.series a).rating
      ∧ a.parallel b = b.parallel a := by
  refine ⟨add_comm _ _, ?_, ?_, ?_⟩
  · show (if a.tolerance ≥ b.tolerance then a.tolerance else b.tolerance) =
      (if b.tolerance ≥ a.tolerance then b.tolerance else a.tolerance)
    rw [if_ge_eq_max, if_ge_eq_max, max_comm]
  · show (if a.rating ≤ b.rating then a.rating else b.rating) =
      (if b.rating ≤ a.rating then b.rating else a.rating)
    rw [if_le_eq_min, if_le_eq_min, min_comm]
  · rcases eq_or_ne a.resistance 0 with ha | ha <;>
      rcases eq_or_ne b.resistance 0 with hb | hb
    · simp [Resistor.parallel, ha, hb]
    · simp [Resistor.parallel, ha, hb]
    · simp [Resistor.parallel, ha, hb]
    · rcases eq_or_ne (1 / a.resistance + 1 / b.resistance) 0 with hs | hs
      · have hs' : 1 / b.resistance + 1 / a.resistance = 0 := by
          rw [add_comm]; exact hs
        rw [Resistor.parallel, Resistor.parallel, if_neg ha, if_neg hb,
          if_pos hs, if_neg hb, if_neg ha, if_pos hs']
      · have hs' : 1 / b.resistance + 1 / a.resistance ≠ 0 := by
          rw [add_comm]; exact hs
        rw [Resistor.parallel, Resistor.parallel, if_neg ha, if_neg hb,
          if_neg hs, if_neg hb, if_neg ha, if_neg hs']
        simp only [if_ge_eq_max, if_le_eq_min]
        rw [max_comm, min_comm, add_comm (1 / a.resistance)]

/-- C8: a call `a.series(b)` or `a.parallel(b)` leaves both operand states
exactly as they were (hence every field of each operand is unchanged); in the
explicit-state-passing translation the post-call operand states equal the
pre-call ones. -/
theorem C8_no_mutation (a b : Resistor) :
    (a.seriesM b).2.1 = a ∧ (a.seriesM b).2.2 = b
      ∧ (a.parallelM b).2.1 = a ∧ (a.parallelM b).2.2 = b :=
  ⟨rfl, rfl, rfl, rfl⟩

/-- C10: the overloaded operators delegate to the named operations:
`__add__` returns exactly `series`, `__floordiv__` exactly `parallel`. -/
theorem C10_operator_equiv (a b : Resistor) :
    a.addOp b = a.series b ∧ a.floordivOp b = a.parallel b :=
  ⟨rfl, rfl⟩

/-- C5, counterexample: constructing a `Resistor` with resistance `0 ≤ 0`
does not fail at all — the constructor has no validation and returns a
zero-resistance `Resistor` — and `parallel` on that operand fails with a
division-by-zero error, which is not the `invalidParameter` kind the claim
names. -/
theorem C5_counterexample :
    mkResistor 0 5 (1/4) =
        { resistance := 0, tolerance := 5, rating := 1/4,
          voltage := 0, current := 0, power := 0 }
      ∧ (mkResistor 0 5 (1/4)).parallel (mkResistor 1000 5 (1/4)) =
          Except.error ElecError.zeroDivision
      ∧ ElecError.zeroDivision ≠ ElecError.invalidParameter := by
  refine ⟨rfl, ?_, by simp⟩
  simp [Resistor.parallel, mkResistor]

/-- C5, amended: the `Resistor` constructor performs no validation (any
resistance, zero or negative included, is accepted silently); `parallel`
fails — with a zero-division error, not an `invalidParameter` — exactly when
a denominator of one of its three divisions is zero: an operand resistance is
zero, or the operands' reciprocals sum to zero; the RC network's constructor
and `voltage` (both modelled from the spec, the source class being an empty
stub) do raise `invalidParameter` exactly on non-positive
resistance/capacitance and on backward time queries respectively. -/
theorem C5_amended_errors :
    (∀ res tol pwr : ℚ, mkResistor res tol pwr =
        { resistance := res, tolerance := tol, rating := pwr,
          voltage := 0, current := 0, power := 0 })
      ∧ (∀ a b : Resistor,
          a.parallel b = Except.error ElecError.zeroDivision ↔
            a.resistance = 0 ∨ b.resistance = 0 ∨
              1 / a.resistance + 1 / b.resistance = 0)
      ∧ (∀ rr cc ii : ℝ,
          mkRCNetwork rr cc ii = Except.error ElecError.invalidParameter ↔
            rr ≤ 0 ∨ cc ≤ 0)
      ∧ (∀ (rc : RCNetwork) (t : ℝ),
          rc.voltage t = Except.error ElecError.invalidParameter ↔
            t < rc.referenceTime) := by
  refine ⟨fun res tol pwr => rfl, fun a b => ?_, fun rr cc ii => ?_,
    fun rc t => ?_⟩
  · rw [Resistor.parallel]
    rcases eq_or_ne a.resistance 0 with ha | ha
    · simp [ha]
    · rcases eq_or_ne b.resistance 0 with hb | hb
      · simp [ha, hb]
      · rcases eq_or_ne (1 / a.resistance + 1 / b.resistance) 0 with hs | hs
        · simp [ha, hb, hs]
        · simp [ha, hb, hs]
  · rw [mkRCNetwork]
    split_ifs with h
    · simp [h]
    · simp [h]
  · rw [RCNetwork.voltage]
    split_ifs with h
    · simp [h]
    · simp [h]

/-- Helper: the fractional-digit extraction returns nothing on an exhausted
remainder, whatever fuel is left. -/
theorem fracDigits_eq_zero (fuel : ℕ) : fracDigits fuel 0 = [] := by
  cases fuel <;> simp [fracDigits]

/-- Helper: one digit-extraction step on a non-exhausted remainder. -/
theorem fracDigits_succ (fuel : ℕ) (q : ℚ) (h : q ≠ 0) :
    fracDigits (fuel + 1) q =
      natDigitChar (⌊q * 10⌋).toNat ::
        fracDigits fuel (q * 10 - (⌊q * 10⌋ : ℚ)) := by
  rw [fracDigits, if_neg h]

/-- Helper: `str(1000.0)` is `"1000.0"`. -/
theorem pyFloatStr_thousand : pyFloatStr 1000 = "1000.0" := by
  have hf0 : ⌊(1000 : ℚ)⌋ = 1000 := Int.floor_eq_iff.mpr (by norm_num)
  have h1 : (1000 : ℚ) - ((1000 : ℤ) : ℚ) = 0 := by norm_num
  rw [pyFloatStr, if_neg (by norm_num : ¬((1000 : ℚ) < 0)),
    abs_of_nonneg (by norm_num : (0 : ℚ) ≤ 1000), hf0, h1, fracDigits_eq_zero]
  decide

/-- Helper: `str(10.0)` is `"10.0"`. -/
theorem pyFloatStr_ten : pyFloatStr 10 = "10.0" := by
  have hf0 : ⌊(10 : ℚ)⌋ = 10 := Int.floor_eq_iff.mpr (by norm_num)
  have h1 : (10 : ℚ) - ((10 : ℤ) : ℚ) = 0 := by norm_num
  rw [pyFloatStr, if_neg (by norm_num : ¬((10 : ℚ) < 0)),
    abs_of_nonneg (by norm_num : (0 : ℚ) ≤ 10), hf0, h1, fracDigits_eq_zero]
  decide

/-- Helper: `str(0.25)` is `"0.25"`. -/
theorem pyFloatStr_quarter : pyFloatStr (1/4) = "0.25" := by
  have hf0 : ⌊(1/4 : ℚ)⌋ = 0 := Int.floor_eq_iff.mpr (by norm_num)
  have h1 : (1/4 : ℚ) - ((0 : ℤ) : ℚ) = 1/4 := by norm_num
  have hf1 : ⌊(1/4 * 10 : ℚ)⌋ = 2 := Int.floor_eq_iff.mpr (by norm_num)
  have h2 : (1/4 * 10 : ℚ) - ((2 : ℤ) : ℚ) = 1/2 := by norm_num
  have hf2 : ⌊(1/2 * 10 : ℚ)⌋ = 5 := Int.floor_eq_iff.mpr (by norm_num)
  have h3 : (1/2 * 10 : ℚ) - ((5 : ℤ) : ℚ) = 0 := by norm_num
  have hd : fracDigits 32 (1/4 : ℚ) = ['2', '5'] := by
    rw [show (32 : ℕ) = 31 + 1 by norm_num,
      fracDigits_succ 31 (1/4) (by norm_num), hf1, h2,
      show (31 : ℕ) = 30 + 1 by norm_num,
      fracDigits_succ 30 (1/2) (by norm_num), hf2, h3, fracDigits_eq_zero]
    decide
  rw [pyFloatStr, if_neg (by norm_num : ¬((1/4 : ℚ) < 0)),
    abs_of_nonneg (by norm_num : (0 : ℚ) ≤ 1/4), hf0, h1, hd]
  decide

/-- C9: the rendering of a `Resistor` is the resistance, tolerance and
rating joined by the Omega/plus-minus/percent/Watt markers under the default
numeric-to-text conversion, and on the unit test's resistor it is exactly
the expected display string. -/
theorem C9_str_render (r : Resistor) :
    r.str = pyFloatStr r.resistance ++ "Ω " ++ "±" ++ pyFloatStr r.tolerance
        ++ "%" ++ " (" ++ pyFloatStr r.rating ++ "W)"
      ∧ (mkResistor 1000 10 (1/4)).str = "1000.0Ω ±10.0% (0.25W)" := by
  refine ⟨rfl, ?_⟩
  show pyFloatStr 1000 ++ "Ω " ++ "±" ++ pyFloatStr 10 ++ "%" ++ " (" ++
      pyFloatStr (1/4) ++ "W)" = _
  rw [pyFloatStr_thousand, pyFloatStr_ten, pyFloatStr_quarter]
  decide

/-- C2: for `atTime ≥ referenceTime`, `voltage(atTime)` returns the
exponential relaxation value; at `atTime = referenceTime` it returns exactly
the reference voltage; when the target differs from the reference voltage,
the value never equals the target at any finite time, yet tends to the
target as time grows (the network being modelled from the spec, with
positive resistance and capacitance). -/
theorem C2_rc_voltage (rc : RCNetwork) (t : ℝ) (ht : rc.referenceTime ≤ t)
    (hR : 0 < rc.resistance) (hC : 0 < rc.capacitance) :
    rc.voltage t = Except.ok (rc.targetVoltage +
        (rc.referenceVoltage - rc.targetVoltage) *
          Real.exp (-(t - rc.referenceTime) /
            (rc.resistance * rc.capacitance)))
      ∧ rc.voltage rc.referenceTime = Except.ok rc.referenceVoltage
      ∧ (rc.targetVoltage ≠ rc.referenceVoltage →
          rc.voltageVal t ≠ rc.targetVoltage)
      ∧ Filter.Tendsto rc.voltageVal Filter.atTop (nhds rc.targetVoltage) := by
  refine ⟨?_, ?_, ?_, ?_⟩
  · rw [RCNetwork.voltage, if_neg (not_lt.mpr ht)]
    rfl
  · rw [RCNetwork.voltage, if_neg (lt_irrefl _), RCNetwork.voltageVal,
      sub_self, neg_zero, zero_div, Real.exp_zero, mul_one]
    rw [add_sub_cancel]
  · intro hne heq
    rw [RCNetwork.voltageVal] at heq
    have h0 : (rc.referenceVoltage - rc.targetVoltage) *
        Real.exp (-(t - rc.referenceTime) /
          (rc.resistance * rc.capacitance)) = 0 :=
      add_right_eq_self.mp heq
    rcases mul_eq_zero.mp h0 with h1 | h1
    · exact hne (sub_eq_zero.mp h1).symm
    · exact Real.exp_ne_zero _ h1
  · have hRC : 0 < rc.resistance * rc.capacitance := mul_pos hR hC
    have h0 : Filter.Tendsto (fun s : ℝ => s + -rc.referenceTime)
        Filter.atTop Filter.atTop :=
      Filter.tendsto_atTop_add_const_right Filter.atTop (-rc.referenceTime)
        Filter.tendsto_id
    have h1 : Filter.Tendsto (fun s : ℝ => s - rc.referenceTime)
        Filter.atTop Filter.atTop := by
      simpa [sub_eq_add_neg] using h0
    have h2 : Filter.Tendsto (fun s : ℝ => -(s - rc.referenceTime))
        Filter.atTop Filter.atBot := Filter.tendsto_neg_atTop_atBot.comp h1
    have h3 : Filter.Tendsto
        (fun s : ℝ => -(s - rc.referenceTime) /
          (rc.resistance * rc.capacitance)) Filter.atTop Filter.atBot :=
      h2.atBot_div_const hRC
    have h4 : Filter.Tendsto
        (fun s : ℝ => Real.exp (-(s - rc.referenceTime) /
          (rc.resistance * rc.capacitance))) Filter.atTop (nhds 0) :=
      Real.tendsto_exp_atBot.comp h3
    have h5 := (h4.const_mul (rc.referenceVoltage - rc.targetVoltage)).const_add
      rc.targetVoltage
    rw [mul_zero, add_zero] at h5
    exact h5

/-- Witness for C2: a network of unit time constant targeting 5 V from a
0 V reference at time 0 reads exactly its reference voltage when queried at
the reference time. -/
theorem C2_rc_voltage_witness :
    RCNetwork.voltage
        { resistance := 1, capacitance := 1, targetVoltage := 5,
          referenceVoltage := 0, referenceTime := 0 } 0 = Except.ok 0 :=
  (C2_rc_voltage
    { resistance := 1, capacitance := 1, targetVoltage := 5,
      referenceVoltage := 0, referenceTime := 0 } 1
    (by norm_num) (by norm_num) (by norm_num)).2.1

/-- C6: `setVoltage(v, atTime)` stores the voltage the network physically
stood at (computed under the current transient) as the new reference
voltage, sets the reference time to `atTime` and the target to `v`, in one
state update that leaves the physical parameters alone; consequently the new
curve starts from the old curve's instantaneous value (modelled from the
spec). -/
theorem C6_rc_set_voltage (rc : RCNetwork) (v t : ℝ) :
    (rc.set_voltage v t).referenceVoltage = rc.voltageVal t
      ∧ (rc.set_voltage v t).referenceTime = t
      ∧ (rc.set_voltage v t).targetVoltage = v
      ∧ (rc.set_voltage v t).resistance = rc.resistance
      ∧ (rc.set_voltage v t).capacitance = rc.capacitance
      ∧ (rc.set_voltage v t).voltageVal t = rc.voltageVal t := by
  refine ⟨rfl, rfl, rfl, rfl, rfl, ?_⟩
  show v + (rc.voltageVal t - v) *
      Real.exp (-(t - t) / (rc.resistance * rc.capacitance)) = rc.voltageVal t
  rw [sub_self, neg_zero, zero_div, Real.exp_zero, mul_one, add_sub_cancel]
